import Mathlib

/-!
A shallow embedding of the crayne-lang bytecode core:

* `src/src/vm/value.rs`   : `Value`, `ConstantPool`
* `src/src/vm/chunk.rs`   : `OpCode`, `Chunk`
* `src/src/tools/disassembler.rs` : the disassembler
* `src/src/vm/mod.rs`     : the `VM` run loop

Machine integers (`u8`, `u32`, `usize`) are embedded as `Nat`; the
source performs no arithmetic on byte or line values (only `ip += 1`
and offset additions on `usize`, which cannot overflow on realistic
chunks and are modelled exactly by `Nat` addition), so no modular
reduction is needed.  `Vec<T>` becomes `List T` with `push` embedded
as appending a singleton at the end.  `println!` output of the VM
loop is made observable as an explicit list of printed values.
-/

namespace Crayne

/-- `Value` from `src/src/vm/value.rs`: a constant value in a chunk.
`Int` holds a `u32`; no arithmetic is ever performed on it. -/
inductive Value where
  | Int (i : Nat)
  | DoesNotExist
  deriving DecidableEq

/-- The `fmt::Display` impl for `Value` in `src/src/vm/value.rs`. -/
def Value.display : Value → String
  | Value.Int i => toString i
  | Value.DoesNotExist => "Constant does not exist"

/-- `ConstantPool` from `src/src/vm/value.rs`: a vector that contains
the constants for a specific chunk. -/
structure ConstantPool where
  vals : List Value
  deriving DecidableEq

/-- `ConstantPool::new`. -/
def ConstantPool.new : ConstantPool := ⟨[]⟩

/-- `ConstantPool::write`: pushes a value at the end of the pool. -/
def ConstantPool.write (p : ConstantPool) (value : Value) : ConstantPool :=
  ⟨p.vals ++ [value]⟩

/-- `ConstantPool::get_const`:
`self.0.get(index).cloned().unwrap_or(Value::DoesNotExist)`. -/
def ConstantPool.get_const (p : ConstantPool) (index : Nat) : Value :=
  (p.vals.get? index).getD Value.DoesNotExist

/-- `OpCode` from `src/src/vm/chunk.rs`. -/
inductive OpCode where
  | Return
  | Constant
  | Invalid (byte : Nat)
  deriving DecidableEq

/-- `impl From<u8> for OpCode` in `src/src/vm/chunk.rs`
(named `fromByte` because `from` is a Lean keyword):
`0 => Return, 1 => Constant, invalid => Invalid(invalid)`. -/
def OpCode.fromByte (byte : Nat) : OpCode :=
  match byte with
  | 0 => OpCode.Return
  | 1 => OpCode.Constant
  | invalid => OpCode.Invalid invalid

/-- `Chunk` from `src/src/vm/chunk.rs`: code bytes, constant pool and
line table. -/
structure Chunk where
  code : List Nat
  constants : ConstantPool
  lines : List Nat
  deriving DecidableEq

/-- `Chunk::new`. -/
def Chunk.new : Chunk := ⟨[], ConstantPool.new, []⟩

/-- `Chunk::write`: pushes `byte` onto `code` and `line` onto `lines`. -/
def Chunk.write (c : Chunk) (byte line : Nat) : Chunk :=
  ⟨c.code ++ [byte], c.constants, c.lines ++ [line]⟩

/-- `Chunk::add_constant`: writes `value` into the constant pool and
leaves `code` and `lines` unchanged. -/
def Chunk.add_constant (c : Chunk) (value : Value) : Chunk :=
  ⟨c.code, c.constants.write value, c.lines⟩

/-- `Chunk::byte_at`:
`*self.code.get(offset).unwrap_or(&u8::max_value())`, where
`u8::max_value() = 255`. -/
def Chunk.byte_at (c : Chunk) (offset : Nat) : Nat :=
  (c.code.get? offset).getD 255

/-- `Chunk::const_val`: `self.constants.get_const(index as usize)`. -/
def Chunk.const_val (c : Chunk) (index : Nat) : Value :=
  c.constants.get_const index

/-- `Chunk::read_const`: the composition of `byte_at` and `const_val`. -/
def Chunk.read_const (c : Chunk) (offset : Nat) : Value :=
  c.const_val (c.byte_at offset)

/-- `Chunk::get_line`: `*self.lines.get(index).unwrap_or(&0)`. -/
def Chunk.get_line (c : Chunk) (index : Nat) : Nat :=
  (c.lines.get? index).getD 0

/-- `Chunk::size`: `self.code.len()`. -/
def Chunk.size (c : Chunk) : Nat := c.code.length

/-- `Chunk::test`: the test chunk shipped in `src/src/vm/chunk.rs`:
`code = [0, 1, 0]`, `constants = [Int(32)]`, `lines = [1, 1, 1]`. -/
def Chunk.test : Chunk :=
  ⟨[0, 1, 0], ConstantPool.new.write (Value.Int 32), [1, 1, 1]⟩

/-! Format helpers mirroring the Rust format strings of
`src/src/tools/disassembler.rs`.  Rust `{:04}` zero-pads a number on
the left to width 4; `{:-16}` pads a string on the right to width 16
(strings left-align by default and the `-` flag is ignored by Rust);
`{:4}` pads a number on the left with spaces to width 4 (numbers
right-align by default). -/

/-- Rust `{:04}` applied to a nonnegative integer. -/
def fmtZeroPad4 (n : Nat) : String :=
  String.mk (List.replicate (4 - (toString n).length) '0') ++ toString n

/-- Rust `{:-16}` applied to a string: left-aligned, width 16. -/
def fmtLeftAlign16 (s : String) : String :=
  s ++ String.mk (List.replicate (16 - s.length) ' ')

/-- Rust `{:4}` applied to a nonnegative integer: right-aligned, width 4. -/
def fmtRightAlign4 (n : Nat) : String :=
  String.mk (List.replicate (4 - (toString n).length) ' ') ++ toString n

/-- `simple_instruction` from `src/src/tools/disassembler.rs`:
`(format!("{}\n", text), offset + 1)`. -/
def simple_instruction (text : String) (offset : Nat) : String × Nat :=
  (text ++ "\n", offset + 1)

/-- `constant_instruction` from `src/src/tools/disassembler.rs`:
reads the operand byte at `offset + 1` and renders
`format!("{:-16} {:4} \x27{}\x27\n", text, constant, chunk.const_val(constant))`,
returning `offset + 2`. -/
def constant_instruction (text : String) (chunk : Chunk) (offset : Nat) :
    String × Nat :=
  (fmtLeftAlign16 text ++ " " ++ fmtRightAlign4 (chunk.byte_at (offset + 1)) ++
      " \x27" ++ (chunk.const_val (chunk.byte_at (offset + 1))).display ++ "\x27\n",
    offset + 2)

/-- `disassemble_instruction` from `src/src/tools/disassembler.rs`.

IMPORTANT modelling note: in the source the second match arm is
written `Constant => ...` without the `OpCode::` path.  Since the
variant is not imported, Rust parses the bare identifier `Constant`
as an irrefutable binding pattern, so that arm matches EVERY opcode
other than `OpCode::Return` — including `OpCode::Invalid(_)` — and
the third arm (`OpCode::Invalid(code)`, which would render
`Unknown opcode: {code}` and advance by 1) is unreachable dead code.
The embedding reflects the compiled behavior: `Return` renders a
simple instruction, everything else renders a constant instruction. -/
def disassemble_instruction (chunk : Chunk) (offset : Nat) : String × Nat :=
  match OpCode.fromByte (chunk.byte_at offset) with
  | OpCode.Return =>
      (fmtZeroPad4 offset ++ " " ++ (simple_instruction "OP_RETURN" offset).1,
        (simple_instruction "OP_RETURN" offset).2)
  | _ =>
      (fmtZeroPad4 offset ++ " " ++
          (constant_instruction "OP_CONSTANT" chunk offset).1,
        (constant_instruction "OP_CONSTANT" chunk offset).2)

/-- `chunk_header` from `src/src/tools/disassembler.rs`:
`format!("== {} ==", name)`. -/
def chunk_header (name : String) : String := "== " ++ name ++ " =="

/-- The recursion of `chunk_body`, made structural on an explicit
bound on the remaining number of steps.  The source recursion
terminates because `disassemble_instruction` always returns an offset
strictly greater than its argument, so `chunk.size - offset` bounds
the number of recursive calls; `chunk_body` below instantiates the
bound with exactly that quantity, and `chunk_body_unfold` proves the
resulting function satisfies the defining equation of the source. -/
def chunk_body_steps (chunk : Chunk) : Nat → Nat → String
  | 0, _ => ""
  | steps + 1, offset =>
      if chunk.size ≤ offset then ""
      else
        (disassemble_instruction chunk offset).1 ++
          chunk_body_steps chunk steps (disassemble_instruction chunk offset).2

/-- `chunk_body` from `src/src/tools/disassembler.rs`: renders one
instruction per decode step until the offset reaches the chunk size. -/
def chunk_body (chunk : Chunk) (offset : Nat) : String :=
  chunk_body_steps chunk (chunk.size - offset) offset

/-- `disassemble_chunk` from `src/src/tools/disassembler.rs`:
`format!("{}\n{}", chunk_header(name), chunk_body(&chunk, 0))`. -/
def disassemble_chunk (chunk : Chunk) (name : String) : String :=
  chunk_header name ++ "\n" ++ chunk_body chunk 0

/-- `VMError` from `src/src/vm/mod.rs`.  Both variants are unit
variants: they carry no payload whatsoever. -/
inductive VMError where
  | CompileError
  | RuntimeError
  deriving DecidableEq

/-- `VMResult = Result<(), VMError>` from `src/src/vm/mod.rs`;
`ok` is `Ok(())`, `err e` is `Err(e)`. -/
inductive VMResult where
  | ok
  | err (e : VMError)
  deriving DecidableEq

/-- The `VM` struct from `src/src/vm/mod.rs`: owns a chunk. -/
structure VM where
  chunk : Chunk
  deriving DecidableEq

/-- The body of the `loop` in `VM::run` (`src/src/vm/mod.rs`), as a
fueled step function; `none` means the fuel ran out before the loop
broke (the theorems below show fuel `chunk.size + 1` always
suffices).  The parameter `ip` is the value of the Rust `ip` variable
at the top of a loop iteration; `output` accumulates the values
printed by the `println!` in the `Constant` arm.

Each iteration reads `instruction = chunk.byte_at(ip)`, then executes
`ip += 1`, then matches on `OpCode::from(instruction)`:
* `Return` breaks with `Ok(())`;
* `Constant` evaluates `chunk.read_const(ip + 1)` — with `ip` already
  incremented, that is offset `ip + 2` relative to the opcode byte —
  prints it, and loops with the incremented `ip` (the operand byte is
  NOT skipped);
* `Invalid(_)` breaks with `Err(VMError::CompileError)` (the byte is
  discarded by the `_` pattern). -/
def VM.runLoop (self : VM) : Nat → Nat → List Value → Option (VMResult × List Value)
  | 0, _, _ => none
  | fuel + 1, ip, output =>
      match OpCode.fromByte (self.chunk.byte_at ip) with
      | OpCode.Return => some (VMResult.ok, output)
      | OpCode.Constant =>
          VM.runLoop self fuel (ip + 1)
            (output ++ [self.chunk.read_const (ip + 1 + 1)])
      | OpCode.Invalid _ => some (VMResult.err VMError.CompileError, output)

/-- `VM::run` from `src/src/vm/mod.rs`: the loop started at `ip = 0`
with no output yet.  The fuel `size + 1` is exact: the loop never
iterates more than `size + 1` times (see `VM_runLoop_isSome` and
`VM_runLoop_fuel_irrelevant`). -/
def VM.run (self : VM) : Option (VMResult × List Value) :=
  VM.runLoop self (self.chunk.size + 1) 0 []

/-- A single builder operation on a chunk: the two mutating
operations `Chunk::write` and `Chunk::add_constant`. -/
inductive BuildOp where
  | writeByte (byte line : Nat)
  | addConst (v : Value)

/-- Apply one builder operation. -/
def applyOp (c : Chunk) : BuildOp → Chunk
  | BuildOp.writeByte b l => c.write b l
  | BuildOp.addConst v => c.add_constant v

/-- The chunk reached from `Chunk::new` by a sequence of builder
operations. -/
def buildChunk (ops : List BuildOp) : Chunk :=
  ops.foldl applyOp Chunk.new

/-- The chunk `code = [1, 0]`, `constants = [Int(32)]`: a `Constant`
instruction with operand index 0 followed by nothing but the operand. -/
def constOperandChunk : Chunk := ⟨[1, 0], ⟨[Value.Int 32]⟩, [1, 1]⟩

/-- The chunk whose code is the single undefined opcode byte 255. -/
def invalid255Chunk : Chunk := ⟨[255], ConstantPool.new, [1]⟩

/-- The chunk whose code is the single undefined opcode byte 7. -/
def invalid7Chunk : Chunk := ⟨[7], ConstantPool.new, [1]⟩

/-- A chunk with an empty code stream and 256 pooled constants, the
last one (index 255) being `Int(7)`. -/
def pool256Chunk : Chunk :=
  ⟨[], ⟨List.replicate 255 (Value.Int 0) ++ [Value.Int 7]⟩, []⟩

/-! Helper lemmas about the accessors. -/

theorem byte_at_of_le (c : Chunk) (i : Nat) (h : c.code.length ≤ i) :
    c.byte_at i = 255 := by
  unfold Chunk.byte_at
  rw [List.get?_len_le h]
  rfl

theorem byte_at_of_lt (c : Chunk) (i : Nat) (h : i < c.code.length) :
    c.byte_at i = c.code.get ⟨i, h⟩ := by
  unfold Chunk.byte_at
  rw [List.get?_eq_get h]
  rfl

theorem get_const_of_le (p : ConstantPool) (i : Nat) (h : p.vals.length ≤ i) :
    p.get_const i = Value.DoesNotExist := by
  unfold ConstantPool.get_const
  rw [List.get?_len_le h]
  rfl

theorem get_const_of_lt (p : ConstantPool) (i : Nat) (h : i < p.vals.length) :
    p.get_const i = p.vals.get ⟨i, h⟩ := by
  unfold ConstantPool.get_const
  rw [List.get?_eq_get h]
  rfl

theorem get_line_of_le (c : Chunk) (i : Nat) (h : c.lines.length ≤ i) :
    c.get_line i = 0 := by
  unfold Chunk.get_line
  rw [List.get?_len_le h]
  rfl

theorem get_line_of_lt (c : Chunk) (i : Nat) (h : i < c.lines.length) :
    c.get_line i = c.lines.get ⟨i, h⟩ := by
  unfold Chunk.get_line
  rw [List.get?_eq_get h]
  rfl

/-- If a byte read decodes to `Constant` (byte value 1), the offset
was in range: the out-of-range sentinel 255 is not 1. -/
theorem lt_of_byte_at_eq_one (c : Chunk) (i : Nat) (h : c.byte_at i = 1) :
    i < c.size := by
  by_contra hge
  push_neg at hge
  rw [byte_at_of_le c i hge] at h
  exact absurd h (by decide)

theorem fromByte_eq_constant : ∀ {b : Nat},
    OpCode.fromByte b = OpCode.Constant → b = 1
  | 0, h => OpCode.noConfusion h
  | 1, _ => rfl
  | _ + 2, h => OpCode.noConfusion h

/-! Termination of the VM loop. -/

/-- Fuel `size + 1 - ip` always suffices for the run loop: every
iteration either breaks (`Return` or an invalid byte, including the
out-of-range sentinel 255) or was a `Constant` decoded strictly
inside the code and advances `ip` by 1. -/
theorem VM_runLoop_isSome (self : VM) :
    ∀ (fuel ip : Nat) (output : List Value), 0 < fuel →
      self.chunk.size < ip + fuel →
      (VM.runLoop self fuel ip output).isSome = true := by
  intro fuel
  induction fuel with
  | zero => intro ip output h0 _; exact absurd h0 (Nat.lt_irrefl 0)
  | succ n ih =>
    intro ip output _ hlt
    rw [VM.runLoop]
    cases hb : OpCode.fromByte (self.chunk.byte_at ip) with
    | Return => rfl
    | Invalid b => rfl
    | Constant =>
      have hip : ip < self.chunk.size :=
        lt_of_byte_at_eq_one self.chunk ip (fromByte_eq_constant hb)
      exact ih (ip + 1) _ (by omega) (by omega)

/-- Beyond the bound, the fuel does not matter: the fueled loop is an
exact model of the unbounded source loop. -/
theorem VM_runLoop_fuel_eq (self : VM) :
    ∀ (f1 f2 ip : Nat) (output : List Value), 0 < f1 →
      self.chunk.size < ip + f1 → f1 ≤ f2 →
      VM.runLoop self f1 ip output = VM.runLoop self f2 ip output := by
  intro f1
  induction f1 with
  | zero => intro f2 ip output h0 _ _; exact absurd h0 (Nat.lt_irrefl 0)
  | succ n ih =>
    intro f2 ip output _ hlt hle
    rcases f2 with _ | m
    · exact absurd hle (by omega)
    · rw [VM.runLoop, VM.runLoop]
      cases hb : OpCode.fromByte (self.chunk.byte_at ip) with
      | Return => rfl
      | Invalid b => rfl
      | Constant =>
        have hip : ip < self.chunk.size :=
          lt_of_byte_at_eq_one self.chunk ip (fromByte_eq_constant hb)
        exact ih m (ip + 1) _ (by omega) (by omega) (by omega)

/-! The disassembler walk. -/

/-- Every decode step of the disassembler advances the offset. -/
theorem disassemble_instruction_snd_gt (chunk : Chunk) (offset : Nat) :
    offset < (disassemble_instruction chunk offset).2 := by
  unfold disassemble_instruction
  cases OpCode.fromByte (chunk.byte_at offset) with
  | Return => show offset < offset + 1; omega
  | Constant => show offset < offset + 2; omega
  | Invalid b => show offset < offset + 2; omega

/-- The step bound of `chunk_body_steps` is irrelevant once it covers
the remaining distance to the end of the chunk. -/
theorem chunk_body_steps_eq (chunk : Chunk) :
    ∀ (s1 s2 offset : Nat), chunk.size - offset ≤ s1 →
      chunk.size - offset ≤ s2 →
      chunk_body_steps chunk s1 offset = chunk_body_steps chunk s2 offset := by
  intro s1
  induction s1 with
  | zero =>
    intro s2 offset h1 _
    rcases s2 with _ | m
    · rfl
    · simp only [chunk_body_steps]
      rw [if_pos (by omega : chunk.size ≤ offset)]
  | succ n ih =>
    intro s2 offset h1 h2
    rcases s2 with _ | m
    · simp only [chunk_body_steps]
      rw [if_pos (by omega : chunk.size ≤ offset)]
    · rw [chunk_body_steps, chunk_body_steps]
      by_cases hso : chunk.size ≤ offset
      · rw [if_pos hso, if_pos hso]
      · rw [if_neg hso, if_neg hso]
        have hgt := disassemble_instruction_snd_gt chunk offset
        rw [ih m (disassemble_instruction chunk offset).2 (by omega) (by omega)]

/-- `chunk_body` satisfies the defining equation of the recursive
source function: it is the fixed point the source recursion computes. -/
theorem chunk_body_unfold (chunk : Chunk) (offset : Nat) :
    chunk_body chunk offset =
      if chunk.size ≤ offset then ""
      else
        (disassemble_instruction chunk offset).1 ++
          chunk_body chunk (disassemble_instruction chunk offset).2 := by
  unfold chunk_body
  by_cases hso : chunk.size ≤ offset
  · rw [if_pos hso]
    have h0 : chunk.size - offset = 0 := by omega
    rw [h0]
    rfl
  · rw [if_neg hso]
    have hstep : chunk.size - offset = (chunk.size - offset - 1) + 1 := by omega
    rw [hstep, chunk_body_steps, if_neg hso]
    have hgt := disassemble_instruction_snd_gt chunk offset
    rw [chunk_body_steps_eq chunk (chunk.size - offset - 1)
      (chunk.size - (disassemble_instruction chunk offset).2)
      (disassemble_instruction chunk offset).2 (by omega) (by omega)]

/-! The builder invariant. -/

/-- Folding builder operations preserves the equality of the code and
line table lengths. -/
theorem buildChunk_preserves (ops : List BuildOp) :
    ∀ c : Chunk, c.code.length = c.lines.length →
      (List.foldl applyOp c ops).code.length =
        (List.foldl applyOp c ops).lines.length := by
  induction ops with
  | nil => intro c h; exact h
  | cons op rest ih =>
    intro c h
    rw [List.foldl_cons]
    apply ih
    cases op with
    | writeByte b l => simp [applyOp, Chunk.write, h]
    | addConst v => simpa [applyOp, Chunk.add_constant] using h

/-! The claims. -/

/-- C1: evaluation of the run loop at a failing input.  The claim
states that the `Constant` dispatch reads the operand byte at the
offset immediately after the opcode byte, pushes the resolved value
onto the value stack, and advances the instruction pointer by exactly
2.  On the chunk `code = [1, 0]`, `constants = [Int(32)]`, the
operand at the offset after the opcode is 0 and resolves to `Int 32`
(second conjunct), but the run instead resolves the byte at offset 2
(out of range, sentinel 255, hence `DoesNotExist`, third conjunct),
prints it rather than pushing it (there is no value stack in the
code), and resumes decoding at offset 1, where the operand byte 0 is
decoded as `Return`, ending the run with `Ok` having printed exactly
`DoesNotExist` (first conjunct). -/
theorem c1_constant_dispatch_eval :
    VM.run ⟨constOperandChunk⟩ = some (VMResult.ok, [Value.DoesNotExist]) ∧
    constOperandChunk.read_const 1 = Value.Int 32 ∧
    constOperandChunk.read_const 2 = Value.DoesNotExist :=
  ⟨rfl, rfl, rfl⟩

/-- C2: evaluation of the disassembler at a failing input.  The claim
states that a byte decoding to `Invalid` renders as
`Unknown opcode: {byte}` and advances the offset by exactly 1.  In
the source the match arm for the constant case is the bare identifier
pattern `Constant`, which captures every opcode except `Return`, so
the `Invalid` arm is unreachable: byte 255 at offset 0 renders as an
`OP_CONSTANT` line (with the out-of-range operand sentinel 255 and
the `DoesNotExist` value) and the offset advances by 2. -/
theorem c2_disassembler_invalid_eval :
    disassemble_instruction invalid255Chunk 0 =
      ("0000 OP_CONSTANT       255 \x27Constant does not exist\x27\n", 2) ∧
    disassemble_instruction invalid255Chunk 0 ≠
      ("0000 Unknown opcode: 255\n", 1) :=
  ⟨rfl, by decide⟩

/-- C3 counterexample: the claim states the `CompileError` returned
for an undefined opcode carries the offending byte (255) and the
offset (0).  But running the VM on `code = [255]` and on `code = [7]`
returns the very same value `Err(CompileError)` although the
offending bytes differ, so the returned error cannot carry the
offending byte (nor the offset): `VMError::CompileError` is a unit
variant with no payload. -/
theorem c3_counterexample :
    VM.run ⟨invalid255Chunk⟩ = some (VMResult.err VMError.CompileError, []) ∧
    VM.run ⟨invalid7Chunk⟩ = some (VMResult.err VMError.CompileError, []) ∧
    invalid255Chunk.byte_at 0 ≠ invalid7Chunk.byte_at 0 :=
  ⟨rfl, rfl, by decide⟩

/-- C3 (amended): running the VM on a chunk whose code is the single
byte 255 returns the `CompileError` failure; the error is a bare unit
variant, so it records neither the offending byte nor the offset
(every `VMError` value is one of the two payload-free variants). -/
theorem c3_run_invalid_amended :
    VM.run ⟨invalid255Chunk⟩ = some (VMResult.err VMError.CompileError, []) ∧
    ∀ e : VMError, e = VMError.CompileError ∨ e = VMError.RuntimeError := by
  refine ⟨rfl, fun e => ?_⟩
  cases e
  · exact Or.inl rfl
  · exact Or.inr rfl

/-- C4: the VM run loop terminates on every chunk: with fuel
`size + 1` the loop always reaches a terminal state (`VM.run` is
`some`, an `Ok` from the `Return` arm or an `Err` from the `Invalid`
arm), and any larger fuel computes the same result, so the unbounded
source loop is modelled exactly and no chunk makes it loop forever. -/
theorem c4_run_terminates (vm : VM) :
    (VM.run vm).isSome = true ∧
    ∀ fuel, vm.chunk.size < fuel → VM.runLoop vm fuel 0 [] = VM.run vm := by
  constructor
  · exact VM_runLoop_isSome vm (vm.chunk.size + 1) 0 [] (by omega) (by omega)
  · intro fuel hf
    exact (VM_runLoop_fuel_eq vm (vm.chunk.size + 1) fuel 0 []
      (by omega) (by omega) (by omega)).symm

/-- C4 witness: the termination theorem applied to the test chunk
with fuel 9. -/
theorem c4_run_terminates_witness :
    (VM.run ⟨Chunk.test⟩).isSome = true ∧
    VM.runLoop ⟨Chunk.test⟩ 9 0 [] = VM.run ⟨Chunk.test⟩ :=
  ⟨(c4_run_terminates ⟨Chunk.test⟩).1,
    (c4_run_terminates ⟨Chunk.test⟩).2 9 (by decide)⟩

/-- C5: disassembling the test chunk `code = [0, 1, 0]`,
`constants = [Int(32)]`, `lines = [1, 1, 1]` under the name `test`
yields exactly the header `== test ==`, then `0000 OP_RETURN`, then
the `OP_CONSTANT` line at offset `0001` with operand 0 and resolved
value 32. -/
theorem c5_disassemble_test_chunk :
    disassemble_chunk Chunk.test "test" =
      "== test ==\n0000 OP_RETURN\n0001 OP_CONSTANT         0 \x2732\x27\n" :=
  rfl

/-- C6: decoding is total over the bytes: 0 decodes to `Return`, 1 to
`Constant`, and every other byte value decodes to `Invalid` carrying
that exact byte. -/
theorem c6_opcode_decode_total :
    OpCode.fromByte 0 = OpCode.Return ∧
    OpCode.fromByte 1 = OpCode.Constant ∧
    ∀ b : Nat, b ≠ 0 → b ≠ 1 → OpCode.fromByte b = OpCode.Invalid b := by
  refine ⟨rfl, rfl, fun b h0 h1 => ?_⟩
  rcases b with _ | (_ | n)
  · exact absurd rfl h0
  · exact absurd rfl h1
  · rfl

/-- C6 witness: the decode theorem at the concrete bytes 0, 1 and 77. -/
theorem c6_opcode_decode_total_witness :
    OpCode.fromByte 0 = OpCode.Return ∧
    OpCode.fromByte 1 = OpCode.Constant ∧
    OpCode.fromByte 77 = OpCode.Invalid 77 :=
  ⟨c6_opcode_decode_total.1, c6_opcode_decode_total.2.1,
    c6_opcode_decode_total.2.2 77 (by decide) (by decide)⟩

/-- C7: the chunk accessors are total (the embedding returns a value
on every input, mirroring the panic-free `get(..).unwrap_or(..)`
source): an in-range argument returns exactly the stored byte, value
or line, and an out-of-range argument returns the documented
sentinel: 255 for `byte_at`, `DoesNotExist` for `const_val`, 0 for
`get_line`. -/
theorem c7_accessors_total (c : Chunk) (i : Nat) :
    (∀ h : i < c.code.length, c.byte_at i = c.code.get ⟨i, h⟩) ∧
    (c.code.length ≤ i → c.byte_at i = 255) ∧
    (∀ h : i < c.constants.vals.length,
      c.const_val i = c.constants.vals.get ⟨i, h⟩) ∧
    (c.constants.vals.length ≤ i → c.const_val i = Value.DoesNotExist) ∧
    (∀ h : i < c.lines.length, c.get_line i = c.lines.get ⟨i, h⟩) ∧
    (c.lines.length ≤ i → c.get_line i = 0) :=
  ⟨fun h => byte_at_of_lt c i h, fun h => byte_at_of_le c i h,
    fun h => get_const_of_lt c.constants i h,
    fun h => get_const_of_le c.constants i h,
    fun h => get_line_of_lt c i h, fun h => get_line_of_le c i h⟩

/-- C7 witness: the accessor theorem at in-range and out-of-range
arguments of the test chunk. -/
theorem c7_accessors_total_witness :
    Chunk.test.byte_at 1 = 1 ∧ Chunk.test.const_val 0 = Value.Int 32 ∧
    Chunk.test.get_line 2 = 1 ∧ Chunk.test.byte_at 9 = 255 ∧
    Chunk.test.const_val 9 = Value.DoesNotExist ∧
    Chunk.test.get_line 9 = 0 :=
  ⟨((c7_accessors_total Chunk.test 1).1 (by decide)).trans (by decide),
    ((c7_accessors_total Chunk.test 0).2.2.1 (by decide)).trans (by decide),
    ((c7_accessors_total Chunk.test 2).2.2.2.2.1 (by decide)).trans (by decide),
    (c7_accessors_total Chunk.test 9).2.1 (by decide),
    (c7_accessors_total Chunk.test 9).2.2.2.1 (by decide),
    (c7_accessors_total Chunk.test 9).2.2.2.2.2 (by decide)⟩

/-- C8: every chunk built from the empty chunk by any sequence of the
two builder operations satisfies `len(code) = len(lines)`; writing a
byte extends both tables by one, and adding a constant changes
neither. -/
theorem c8_builder_invariant (ops : List BuildOp) (c : Chunk) (b l : Nat)
    (v : Value) :
    (buildChunk ops).code.length = (buildChunk ops).lines.length ∧
    (c.write b l).code.length = c.code.length + 1 ∧
    (c.write b l).lines.length = c.lines.length + 1 ∧
    (c.add_constant v).code = c.code ∧
    (c.add_constant v).lines = c.lines := by
  refine ⟨buildChunk_preserves ops Chunk.new rfl, ?_, ?_, rfl, rfl⟩
  · simp [Chunk.write]
  · simp [Chunk.write]

/-- C9: running the VM on the empty chunk neither loops nor fails to
return: the out-of-range read at offset 0 yields the sentinel 255,
which decodes to `Invalid`, so the run returns the `CompileError`
failure already within the first loop iteration (fuel 1 suffices). -/
theorem c9_run_empty_chunk :
    VM.run ⟨Chunk.new⟩ = some (VMResult.err VMError.CompileError, []) ∧
    Chunk.new.byte_at 0 = 255 ∧
    OpCode.fromByte 255 = OpCode.Invalid 255 ∧
    VM.runLoop ⟨Chunk.new⟩ 1 0 [] =
      some (VMResult.err VMError.CompileError, []) :=
  ⟨rfl, rfl, rfl, rfl⟩

/-- C10: for an out-of-range code offset, `read_const` looks up the
pool at the sentinel byte 255; with at most 255 pooled values that
index is out of range and the `DoesNotExist` sentinel comes back, but
with 256 or more pooled values the real constant stored at index 255
is returned, the sentinel being indistinguishable from a valid pool
index. -/
theorem c10_read_const_sentinel (c : Chunk) (offset : Nat)
    (hoff : c.code.length ≤ offset) :
    (c.constants.vals.length ≤ 255 →
      c.read_const offset = Value.DoesNotExist) ∧
    ∀ h : 255 < c.constants.vals.length,
      c.read_const offset = c.constants.vals.get ⟨255, h⟩ := by
  have hb : c.byte_at offset = 255 := byte_at_of_le c offset hoff
  constructor
  · intro hp
    unfold Chunk.read_const
    rw [hb]
    exact get_const_of_le c.constants 255 hp
  · intro h
    unfold Chunk.read_const
    rw [hb]
    exact get_const_of_lt c.constants 255 h

set_option maxRecDepth 4000 in
/-- C10 witness: the sentinel-collision theorem at the test chunk
(pool of size 1) and at a chunk with 256 pooled constants whose last
entry is `Int 7`. -/
theorem c10_read_const_sentinel_witness :
    Chunk.test.read_const 99 = Value.DoesNotExist ∧
    pool256Chunk.read_const 0 = Value.Int 7 := by
  constructor
  · exact (c10_read_const_sentinel Chunk.test 99 (by decide)).1 (by decide)
  · exact ((c10_read_const_sentinel pool256Chunk 0 (by decide)).2
      (by decide)).trans (by decide)

end Crayne
